import Mathlib

/-!
Shallow embedding of the order payment-confirmation and stock-deduction
engine of the kame.colStore repository, together with proofs of the spec's
testable properties.

Embedded source files:
- `src/apps/orders/models.py` (`Order`, `OrderItem`, `Order.confirm_payment`,
  `Order.save`, `Order._recalc_totals_in_memory`, `OrderItem.save`)
- `src/apps/orders/services/payments.py` (`confirm_order_payment`)
- `src/apps/orders/services/stock.py` (`StockCheckResult`,
  `_extract_variant_and_qty`, `validate_items_stock`, `assert_items_stock`)
- `src/apps/catalog/models.py` (`ProductVariant`: `stock`, `is_active`)

Conventions of the embedding:
- Django rows become Lean structures; the database visible to one
  confirmation transaction becomes an explicit `DB` record (the locked
  order, its line items, and the variant table).
- Timestamps (`timezone.now()`) are threaded in as a `Nat` parameter and
  stored as `Option Nat` (Django `DateTimeField(null=True)`).
- Python `int` money amounts are `Nat` (they are `PositiveIntegerField`s);
  variant stock is `Int` so that the deduction arithmetic is Python's,
  with non-negativity proved rather than forced by the type.
- A raised `ValidationError` becomes `Except.error msg` with the source's
  message; `transaction.atomic` means an error leaves the database
  unchanged, which the `*_run` wrappers make explicit.
- `payment_reference` generation (random, I/O) and the post-commit email
  hook of `confirm_order_payment` are not modelled: they touch no field
  any claim mentions.
-/

namespace KameCol

/-- Order.Status (models.py lines 10-15). -/
inductive Status where
  | pending_payment
  | created
  | paid
  | cancelled
  | refunded
deriving DecidableEq, Repr

/-- catalog ProductVariant, restricted to the fields the stock engine reads
(catalog/models.py lines 278-318): primary key, `stock`, `is_active`. -/
structure Variant where
  id : Nat
  stock : Int
  is_active : Bool
deriving DecidableEq, Repr

/-- orders OrderItem (models.py lines 198-228): owning order is implicit in
`DB.items`; `unit_price` is nullable (models.py lines 213-218). -/
structure OrderItem where
  product_variant_id : Nat
  quantity : Nat
  unit_price : Option Nat
deriving DecidableEq, Repr

/-- orders Order (models.py lines 9-63), restricted to the fields the
confirmation engine reads and writes. -/
structure Order where
  pk : Option Nat
  status : Status
  subtotal : Nat
  shipping_cost : Nat
  total : Nat
  payment_confirmed_at : Option Nat
  stock_deducted_at : Option Nat
deriving DecidableEq, Repr

/-- Order._recalc_totals_in_memory (models.py lines 65-89): when the order
already exists (has a pk) the subtotal is recomputed from the line items,
skipping items whose unit_price is None; the total is always
subtotal + shipping_cost. -/
def _recalc_totals_in_memory (o : Order) (items : List OrderItem) : Order :=
  let o1 :=
    if o.pk.isSome then
      { o with subtotal :=
          (items.map (fun it =>
            match it.unit_price with
            | none => 0
            | some p => it.quantity * p)).sum }
    else o
  { o1 with total := o1.subtotal + o1.shipping_cost }

/-- Order.save (models.py lines 91-105): every save recalculates totals
before persisting; the returned record is the persisted row. -/
def Order.save (o : Order) (items : List OrderItem) : Order :=
  _recalc_totals_in_memory o items

/-- stock.py StockCheckResult (lines 31-40). -/
structure StockCheckResult where
  variant_id : Option Nat
  ok : Bool
  requested : Int
  available : Int
  is_active : Bool
  reason : Option String
deriving DecidableEq, Repr

/-- One item handed to the stock validator: the resolved variant (None when
the reference does not resolve) and the raw quantity (None when absent).
Both the dict shape and the OrderItem-like shape of stock.py reduce to
these two fields, with `int(qty or 0)` mapping a missing quantity to 0
(stock.py lines 43-55, `_extract_variant_and_qty`). -/
structure StockItem where
  product_variant : Option Variant
  quantity : Option Int
deriving DecidableEq, Repr

/-- stock.py `_extract_variant_and_qty` (lines 43-55): `int(qty or 0)`
turns both a missing and a zero quantity into 0 and keeps any other value. -/
def _extract_variant_and_qty (item : StockItem) : Option Variant × Int :=
  (item.product_variant, item.quantity.getD 0)

/-- The classification of a single item inside the loop of
`validate_items_stock` (stock.py lines 72-140): qty < 1, missing variant,
inactive variant, insufficient stock, ok — in that order. -/
def check_item (item : StockItem) : StockCheckResult :=
  let ex := _extract_variant_and_qty item
  let variant := ex.1
  let qty := ex.2
  if qty < 1 then
    { variant_id := variant.map Variant.id
      ok := false
      requested := qty
      available := (variant.map Variant.stock).getD 0
      is_active := (variant.map Variant.is_active).getD false
      reason := some "Cantidad inválida." }
  else
    match variant with
    | none =>
      { variant_id := none
        ok := false
        requested := qty
        available := 0
        is_active := false
        reason := some "Variante no encontrada." }
    | some v =>
      if v.is_active = false then
        { variant_id := some v.id
          ok := false
          requested := qty
          available := v.stock
          is_active := v.is_active
          reason := some "Variante inactiva." }
      else if v.stock < qty then
        { variant_id := some v.id
          ok := false
          requested := qty
          available := v.stock
          is_active := v.is_active
          reason := some "Stock insuficiente." }
      else
        { variant_id := some v.id
          ok := true
          requested := qty
          available := v.stock
          is_active := v.is_active
          reason := none }

/-- stock.py `validate_items_stock` (lines 58-142): the loop appends one
`StockCheckResult` per item and never raises. -/
def validate_items_stock (items : List StockItem) : List StockCheckResult :=
  items.map check_item

/-- The error line `assert_items_stock` builds for one failing result
(stock.py lines 160-161). -/
def stock_error_line (r : StockCheckResult) : String :=
  let vid :=
    match r.variant_id with
    | some i => toString i
    | none => "?"
  let why := r.reason.getD ""
  let req := r.requested
  let avail := r.available
  s!"Variante #{vid}: {why} (solicitado: {req}, disponible: {avail})"

/-- stock.py `assert_items_stock` (lines 145-164): collect one line per
not-ok result and raise a single aggregated ValidationError joining them
with "; ", or return silently when every result is ok. -/
def assert_items_stock (items : List StockItem) : Except String Unit :=
  let results := validate_items_stock items
  let errors := (results.filter (fun r => !r.ok)).map stock_error_line
  if errors.isEmpty then Except.ok ()
  else Except.error (String.intercalate "; " errors)

/-- `d.get(k, dflt)` on the insertion-ordered association list that embeds
the Python dict used by the aggregators. -/
def dict_get (d : List (Nat × Nat)) (k : Nat) (dflt : Nat) : Nat :=
  match d.find? (fun p => p.1 == k) with
  | some p => p.2
  | none => dflt

/-- `d[k] = v` on the same association list: overwrite in place when the
key exists, append otherwise (Python dicts keep insertion order). -/
def dict_set (d : List (Nat × Nat)) (k : Nat) (v : Nat) : List (Nat × Nat) :=
  if d.any (fun p => p.1 == k) then
    d.map (fun p => if p.1 == k then (k, v) else p)
  else d ++ [(k, v)]

/-- The line aggregator shared by models.py lines 146-150 and payments.py
lines 92-99: `required_by_variant[vid] = required_by_variant.get(vid, 0) +
item.quantity` folded over the order's items. -/
def required_by_variant (items : List OrderItem) : List (Nat × Nat) :=
  items.foldl
    (fun acc it =>
      dict_set acc it.product_variant_id
        (dict_get acc it.product_variant_id 0 + it.quantity))
    []

/-- The database slice one confirmation transaction sees: the order row it
locks, that order's line items, and the variant table. -/
structure DB where
  order : Order
  items : List OrderItem
  variants : List Variant
deriving DecidableEq, Repr

/-- Row lookup by primary key: the service's
`ProductVariant.objects.filter(id__in=...)` resolved per id
(payments.py lines 102-107). -/
def find_variant (vs : List Variant) (vid : Nat) : Option Variant :=
  vs.find? (fun v => v.id == vid)

/-- Row lookup by primary key restricted to active rows: the model method's
`filter(id__in=..., is_active=True)` resolved per id (models.py
lines 153-158). -/
def find_active_variant (vs : List Variant) (vid : Nat) : Option Variant :=
  vs.find? (fun v => v.id == vid && v.is_active)

/-- `variant.save(update_fields=["stock"])`: write one row back into the
table, keyed by primary key. -/
def save_variant (vs : List Variant) (v1 : Variant) : List Variant :=
  vs.map (fun v => if v.id == v1.id then v1 else v)

/-- The deduction loop of payments.py lines 120-124: for each aggregated
(variant id, required qty) pair, subtract the quantity from the looked-up
row and save it. The aggregator's keys are distinct, so reading each row
from the current table equals reading it from the pre-loop snapshot. -/
def deduct_stock (vs : List Variant) (req : List (Nat × Nat)) : List Variant :=
  req.foldl
    (fun acc p =>
      match find_variant acc p.1 with
      | some v => save_variant acc { v with stock := v.stock - Int.ofNat p.2 }
      | none => acc)
    vs

/-- The deduction loop of models.py lines 171-175: identical, except that
`variants_by_id` was built from the active-only queryset. -/
def deduct_stock_active (vs : List Variant) (req : List (Nat × Nat)) : List Variant :=
  req.foldl
    (fun acc p =>
      match find_active_variant acc p.1 with
      | some v => save_variant acc { v with stock := v.stock - Int.ofNat p.2 }
      | none => acc)
    vs

/-- payments.py lines 109-110: aggregated variant ids that do not resolve
to any locked row. -/
def service_missing (db : DB) : List Nat :=
  ((required_by_variant db.items).map Prod.fst).filter
    (fun vid => (find_variant db.variants vid).isNone)

/-- payments.py lines 113-117: the `stock_items` dicts handed to
`assert_items_stock`, one per aggregated (variant id, required qty) pair.
When `service_missing db` is empty the dict access `variants_by_id[vid]`
and this per-id lookup agree. -/
def order_stock_items (db : DB) : List StockItem :=
  (required_by_variant db.items).map
    (fun p => StockItem.mk (find_variant db.variants p.1) (some (Int.ofNat p.2)))

/-- The order as `confirm_order_payment` persists it on the fresh path
(payments.py lines 136-155): totals recalculated from the items, status
PAID, both timestamps set to now. -/
def confirm_success_order (db : DB) (now : Nat) : Order :=
  let o1 := _recalc_totals_in_memory db.order db.items
  { o1 with
      status := Status.paid
      payment_confirmed_at := some now
      stock_deducted_at := some now }

/-- The database as the fresh path of `confirm_order_payment` leaves it:
every aggregated variant deducted, the order updated. -/
def confirm_success_db (db : DB) (now : Nat) : DB :=
  { db with
      order := confirm_success_order db now
      variants := deduct_stock db.variants (required_by_variant db.items) }

/-- payments.py `confirm_order_payment` (lines 47-179). The returned pair
is (database after the transaction body, the state reflected back onto the
caller's instance). Every `raise ValidationError` is an `Except.error`
with the source's message; the idempotent fast path returns success with
nothing changed. -/
def confirm_order_payment (db : DB) (now : Nat) : Except String (DB × Order) :=
  if db.order.pk = none then
    Except.error "El pedido debe estar guardado antes de confirmar pago."
  else
    if db.order.status = Status.cancelled ∨ db.order.status = Status.refunded then
      Except.error "No se puede confirmar pago para un pedido cancelado o reembolsado."
    else if db.order.status = Status.paid ∧ db.order.stock_deducted_at.isSome then
      Except.ok (db, db.order)
    else if db.order.status = Status.paid ∧ db.order.stock_deducted_at = none then
      Except.error "El pedido ya está marcado como pagado; no se puede reconfirmar."
    else if db.order.status ≠ Status.created ∧ db.order.status ≠ Status.pending_payment then
      Except.error "Estado inválido para confirmar pago."
    else if db.items.isEmpty then
      Except.error "La orden no tiene ítems asociados."
    else if (service_missing db).isEmpty = false then
      Except.error "Hay variantes inválidas en el pedido."
    else
      match assert_items_stock (order_stock_items db) with
      | Except.error msg => Except.error msg
      | Except.ok _ => Except.ok (confirm_success_db db now, confirm_success_order db now)

/-- `transaction.atomic` around `confirm_order_payment`: the state that is
actually committed — the body's final state on success, the original state
on any raise (full rollback). -/
def confirm_order_payment_run (db : DB) (now : Nat) : DB :=
  match confirm_order_payment db now with
  | Except.ok p => p.1
  | Except.error _ => db

/-- models.py lines 160-162: aggregated variant ids with no active locked
row (the queryset filters `is_active=True`, so an inactive variant shows
up as missing here). -/
def model_missing (db : DB) : List Nat :=
  ((required_by_variant db.items).map Prod.fst).filter
    (fun vid => (find_active_variant db.variants vid).isNone)

/-- models.py lines 164-169: the first aggregated pair whose locked variant
has less stock than required (the pair the loop raises on), if any. -/
def model_insufficient (db : DB) : Option (Nat × Nat) :=
  (required_by_variant db.items).find?
    (fun p =>
      match find_active_variant db.variants p.1 with
      | some v => decide (v.stock < Int.ofNat p.2)
      | none => false)

/-- The order as `Order.confirm_payment` persists it on its success path
(models.py lines 177-182): `recalculate_total`, then status PAID and both
timestamps. -/
def model_success_order (db : DB) (now : Nat) : Order :=
  let o1 := _recalc_totals_in_memory db.order db.items
  { o1 with
      status := Status.paid
      payment_confirmed_at := some now
      stock_deducted_at := some now }

/-- The database as the success path of `Order.confirm_payment` leaves it. -/
def model_success_db (db : DB) (now : Nat) : DB :=
  { db with
      order := model_success_order db now
      variants := deduct_stock_active db.variants (required_by_variant db.items) }

/-- models.py `Order.confirm_payment` (lines 111-188). Differences from the
service worth noting, all visible below: a PAID order without the
idempotency marker passes the status gate (the comment on line 139 calls
it "a partially-processed PAID") and falls through to deduction; there is
no empty-items check; stock is validated by an inline loop rather than by
`assert_items_stock`; the variant queryset filters `is_active=True`. An
unsaved order makes `Order.objects.get(pk=None)` raise DoesNotExist,
embedded as an error. -/
def Order.confirm_payment (db : DB) (now : Nat) : Except String DB :=
  if db.order.pk = none then
    Except.error "Order matching query does not exist."
  else
    if db.order.status = Status.cancelled ∨ db.order.status = Status.refunded then
      Except.error "No se puede confirmar pago para un pedido cancelado o reembolsado."
    else if db.order.status = Status.paid ∧ db.order.stock_deducted_at.isSome then
      Except.ok db
    else if db.order.status ≠ Status.pending_payment ∧ db.order.status ≠ Status.created ∧
        db.order.status ≠ Status.paid then
      Except.error "Solo se puede confirmar pago para un pedido en estado PENDING_PAYMENT/CREATED."
    else if (model_missing db).isEmpty = false then
      Except.error "Hay variantes inválidas o inactivas en el pedido."
    else
      match model_insufficient db with
      | some p =>
        let vid := p.1
        let reqq := p.2
        Except.error s!"Stock insuficiente para la variante #{vid}. Requerido: {reqq}."
      | none => Except.ok (model_success_db db now)

/-- `transaction.atomic` around `Order.confirm_payment`: committed state. -/
def model_confirm_run (db : DB) (now : Nat) : DB :=
  match Order.confirm_payment db now with
  | Except.ok db1 => db1
  | Except.error _ => db

/-- The fields of one OrderItem row that `OrderItem.save` reads
(models.py lines 230-249): its pk (None before the first insert), whether
the ORM is inserting (`self._state.adding`), the owning order's status, the
associated product's current price (None when the variant or product chain
is absent), and the line's own fields. -/
structure ItemRow where
  pk : Option Nat
  adding : Bool
  order_status : Status
  product_price : Option Nat
  quantity : Nat
  unit_price : Option Nat
deriving DecidableEq, Repr

/-- models.py `OrderItem.save` (lines 230-249): reject edits of an existing
item (`self.pk` set) when the owning order is PAID; on insert, autofill a
missing or zero unit price from the product's current price; otherwise save
the row as-is. -/
def OrderItem.save (it : ItemRow) : Except String ItemRow :=
  if it.pk.isSome ∧ it.order_status = Status.paid then
    Except.error "No se pueden modificar items de una orden ya pagada."
  else
    let it1 :=
      if it.adding ∧ (it.unit_price = none ∨ it.unit_price = some 0) then
        match it.product_price with
        | some p => { it with unit_price := some p }
        | none => it
      else it
    Except.ok it1

/-! ## Concrete fixtures used to instantiate the theorems -/

/-- A persisted pending-payment order with shipping cost 7. -/
def exOrder : Order :=
  { pk := some 1, status := Status.pending_payment, subtotal := 0,
    shipping_cost := 7, total := 0,
    payment_confirmed_at := none, stock_deducted_at := none }

/-- A confirmable state: one line of 3 units of variant 1 (stock 5). -/
def exDB : DB :=
  { order := exOrder
    items := [⟨1, 3, some 100⟩]
    variants := [⟨1, 5, true⟩, ⟨2, 4, true⟩] }

/-- A state whose only line requests 2 units of a variant with stock 1. -/
def exBad : DB :=
  { order := exOrder
    items := [⟨1, 2, some 10⟩]
    variants := [⟨1, 1, true⟩] }

/-- A PAID order whose idempotency marker was never set (the recovered
inconsistent state of spec §4.3 step 4). -/
def exPaidNoMark : DB :=
  { order := { pk := some 1, status := Status.paid, subtotal := 0,
               shipping_cost := 0, total := 0,
               payment_confirmed_at := none, stock_deducted_at := none }
    items := [⟨1, 2, some 50⟩]
    variants := [⟨1, 5, true⟩] }

/-- A persisted pending order with no line items at all. -/
def exEmpty : DB :=
  { order := exOrder
    items := []
    variants := [⟨1, 5, true⟩] }

/-- A brand-new order item (no pk, being inserted) whose owning order is
already PAID. -/
def exNewItem : ItemRow :=
  { pk := none, adding := true, order_status := Status.paid,
    product_price := some 100, quantity := 2, unit_price := none }

/-! ## Helper lemmas: the dict embedding -/

theorem find?_map_pred {α : Type} (f : α → α) (p : α → Bool) (l : List α)
    (hp : ∀ a, p (f a) = p a) : (l.map f).find? p = (l.find? p).map f := by
  rw [List.find?_map]
  have hfp : p ∘ f = p := funext hp
  rw [hfp]

theorem nat_beq_true {a b : Nat} (h : (a == b) = true) : a = b := by
  simpa using h

theorem nat_beq_false {a b : Nat} (h : a ≠ b) : (a == b) = false := by
  simpa using h

theorem dict_get_dict_set_self (d : List (Nat × Nat)) (k v dflt : Nat) :
    dict_get (dict_set d k v) k dflt = v := by
  unfold dict_get dict_set
  split_ifs with ha
  · rw [find?_map_pred]
    · rcases hf : d.find? (fun p => p.1 == k) with _ | p0
      · exfalso
        obtain ⟨x, hx, hpx⟩ := List.any_eq_true.mp ha
        exact absurd hpx (List.find?_eq_none.mp hf x hx)
      · have hk : (p0.1 == k) = true := by simpa using List.find?_some hf
        rw [hf]
        simp only [Option.map_some']
        rw [if_pos hk]
    · intro a
      by_cases hak : (a.1 == k) = true
      · rw [if_pos hak]
        simp [nat_beq_true hak]
      · rw [if_neg hak]
  · rw [List.find?_append]
    have hd : d.find? (fun p => p.1 == k) = none := by
      rw [List.find?_eq_none]
      intro x hx hpx
      exact ha (List.any_eq_true.mpr ⟨x, hx, hpx⟩)
    rw [hd]
    simp [List.find?]

theorem dict_get_dict_set_ne (d : List (Nat × Nat)) (k v k' dflt : Nat)
    (h : k' ≠ k) : dict_get (dict_set d k v) k' dflt = dict_get d k' dflt := by
  have hkk : (k == k') = false := nat_beq_false (fun hc => h hc.symm)
  unfold dict_get dict_set
  split_ifs with ha
  · rw [find?_map_pred]
    · rcases hf : d.find? (fun p => p.1 == k') with _ | p0
      · rw [hf]
        rfl
      · have hk' : (p0.1 == k') = true := by simpa using List.find?_some hf
        have hp0 : (p0.1 == k) = false := by
          apply nat_beq_false
          intro hc
          rw [hc] at hk'
          exact h (nat_beq_true hk').symm
        rw [hf]
        simp only [Option.map_some']
        rw [if_neg (by simp [hp0])]
    · intro a
      by_cases hak : (a.1 == k) = true
      · rw [if_pos hak]
        have ha' : (a.1 == k') = false := by
          apply nat_beq_false
          rw [nat_beq_true hak]
          exact fun hc => h hc.symm
        simp only [hkk, ha']
      · rw [if_neg hak]
  · rw [List.find?_append]
    rcases hf : d.find? (fun p => p.1 == k') with _ | p0
    · rw [hf]
      simp [List.find?, hkk]
    · rw [hf]
      rfl

theorem dict_set_keys (d : List (Nat × Nat)) (k v : Nat) :
    (dict_set d k v).map Prod.fst =
      if d.any (fun p => p.1 == k) then d.map Prod.fst
      else d.map Prod.fst ++ [k] := by
  unfold dict_set
  split_ifs with ha
  · rw [List.map_map]
    apply List.map_congr_left
    intro p _
    by_cases hpk : (p.1 == k) = true
    · simp only [Function.comp_apply, if_pos hpk]
      exact (nat_beq_true hpk).symm
    · simp only [Function.comp_apply, if_neg hpk]
  · simp

theorem dict_set_keys_nodup {d : List (Nat × Nat)} {k : Nat} (v : Nat)
    (h : (d.map Prod.fst).Nodup) : ((dict_set d k v).map Prod.fst).Nodup := by
  rw [dict_set_keys]
  split_ifs with ha
  · exact h
  · rw [List.nodup_append]
    refine ⟨h, List.nodup_singleton k, ?_⟩
    intro x hx hk1
    have hxk : x = k := by simpa using hk1
    obtain ⟨p, hp, hpx⟩ := List.mem_map.mp hx
    apply ha
    exact List.any_eq_true.mpr ⟨p, hp, by simp [hpx, hxk]⟩

theorem req_foldl_keys_nodup (l : List OrderItem) :
    ∀ acc : List (Nat × Nat), (acc.map Prod.fst).Nodup →
      ((l.foldl (fun acc it =>
          dict_set acc it.product_variant_id
            (dict_get acc it.product_variant_id 0 + it.quantity)) acc).map Prod.fst).Nodup := by
  induction l with
  | nil => intro acc h; exact h
  | cons it t ih =>
    intro acc h
    exact ih _ (dict_set_keys_nodup _ h)

theorem required_by_variant_keys_nodup (items : List OrderItem) :
    ((required_by_variant items).map Prod.fst).Nodup := by
  unfold required_by_variant
  exact req_foldl_keys_nodup items [] (by simp)

theorem dict_get_req_foldl (l : List OrderItem) :
    ∀ (acc : List (Nat × Nat)) (vid : Nat),
      dict_get (l.foldl (fun acc it =>
          dict_set acc it.product_variant_id
            (dict_get acc it.product_variant_id 0 + it.quantity)) acc) vid 0 =
        dict_get acc vid 0 +
          ((l.filter (fun it => it.product_variant_id == vid)).map OrderItem.quantity).sum := by
  induction l with
  | nil => intro acc vid; simp
  | cons it t ih =>
    intro acc vid
    rw [List.foldl_cons, ih, List.filter_cons]
    by_cases h : (it.product_variant_id == vid) = true
    · have hv : vid = it.product_variant_id := (nat_beq_true h).symm
      rw [if_pos h, hv, dict_get_dict_set_self]
      simp only [List.map_cons, List.sum_cons]
      omega
    · have hv : vid ≠ it.product_variant_id := by
        intro hc
        exact h (by simp [hc])
      rw [if_neg h, dict_get_dict_set_ne _ _ _ _ _ hv]

/-! ## Helper lemmas: variant lookup, save and the deduction loop -/

theorem find_variant_eq_id {vs : List Variant} {vid : Nat} {v : Variant}
    (h : find_variant vs vid = some v) : v.id = vid := by
  have hb : (v.id == vid) = true := by simpa using List.find?_some h
  exact nat_beq_true hb

theorem find_active_variant_eq_id {vs : List Variant} {vid : Nat} {v : Variant}
    (h : find_active_variant vs vid = some v) : v.id = vid ∧ v.is_active = true := by
  have hb : (v.id == vid && v.is_active) = true := by simpa using List.find?_some h
  rw [Bool.and_eq_true] at hb
  exact ⟨nat_beq_true hb.1, hb.2⟩

theorem find_variant_save_ne {vs : List Variant} {v1 : Variant} {vid : Nat}
    (h : v1.id ≠ vid) : find_variant (save_variant vs v1) vid = find_variant vs vid := by
  unfold find_variant save_variant
  rw [find?_map_pred]
  · rcases hf : vs.find? (fun v => v.id == vid) with _ | v0
    · rw [hf]
      rfl
    · have h0 : (v0.id == vid) = true := by simpa using List.find?_some hf
      have hne : (v0.id == v1.id) = false :=
        nat_beq_false (fun hc => h (by rw [← hc]; exact nat_beq_true h0))
      rw [hf]
      simp only [Option.map_some']
      rw [if_neg (by simp [hne])]
  · intro a
    by_cases ha : (a.id == v1.id) = true
    · rw [if_pos ha]
      have h1 : (v1.id == vid) = false := nat_beq_false h
      have h2 : (a.id == vid) = false :=
        nat_beq_false (by rw [nat_beq_true ha]; exact h)
      simp only [h1, h2]
    · rw [if_neg ha]

theorem find_active_variant_save_ne {vs : List Variant} {v1 : Variant} {vid : Nat}
    (h : v1.id ≠ vid) :
    find_active_variant (save_variant vs v1) vid = find_active_variant vs vid := by
  unfold find_active_variant save_variant
  rw [find?_map_pred]
  · rcases hf : vs.find? (fun v => v.id == vid && v.is_active) with _ | v0
    · rw [hf]
      rfl
    · have h0 : (v0.id == vid && v0.is_active) = true := by simpa using List.find?_some hf
      rw [Bool.and_eq_true] at h0
      have hne : (v0.id == v1.id) = false :=
        nat_beq_false (fun hc => h (by rw [← hc]; exact nat_beq_true h0.1))
      rw [hf]
      simp only [Option.map_some']
      rw [if_neg (by simp [hne])]
  · intro a
    by_cases ha : (a.id == v1.id) = true
    · rw [if_pos ha]
      have h1 : (v1.id == vid) = false := nat_beq_false h
      have h2 : (a.id == vid) = false :=
        nat_beq_false (by rw [nat_beq_true ha]; exact h)
      simp only [h1, h2, Bool.false_and]
    · rw [if_neg ha]

theorem mem_save_variant {vs : List Variant} {v1 x : Variant}
    (hx : x ∈ save_variant vs v1) : x = v1 ∨ x ∈ vs := by
  unfold save_variant at hx
  obtain ⟨y, hy, hyx⟩ := List.mem_map.mp hx
  by_cases hid : (y.id == v1.id) = true
  · rw [if_pos hid] at hyx
    exact Or.inl hyx.symm
  · rw [if_neg hid] at hyx
    exact Or.inr (hyx ▸ hy)

/-- Shared shape of the two deduction loops: starting from a table whose
stocks are all non-negative, deducting a batch with distinct keys, each of
which resolves to a row holding at least the deducted quantity, keeps every
stock non-negative. -/
theorem deduct_fold_nonneg
    (findf : List Variant → Nat → Option Variant)
    (hstab : ∀ (vs : List Variant) (v1 : Variant) (vid : Nat), v1.id ≠ vid →
      findf (save_variant vs v1) vid = findf vs vid)
    (hid : ∀ (vs : List Variant) (vid : Nat) (v : Variant),
      findf vs vid = some v → v.id = vid) :
    ∀ (req : List (Nat × Nat)) (vs : List Variant),
      (req.map Prod.fst).Nodup →
      (∀ v ∈ vs, 0 ≤ v.stock) →
      (∀ p ∈ req, ∃ v, findf vs p.1 = some v ∧ Int.ofNat p.2 ≤ v.stock) →
      ∀ v1 ∈ req.foldl (fun acc p =>
          match findf acc p.1 with
          | some v => save_variant acc { v with stock := v.stock - Int.ofNat p.2 }
          | none => acc) vs,
        0 ≤ v1.stock := by
  intro req
  induction req with
  | nil =>
    intro vs _ hnn _ v1 hv1
    exact hnn v1 hv1
  | cons p rest ih =>
    intro vs hnd hnn hreq v1 hv1
    rw [List.foldl_cons] at hv1
    obtain ⟨v, hfind, hle⟩ := hreq p (List.mem_cons_self _ _)
    rw [hfind] at hv1
    have hvid : v.id = p.1 := hid vs p.1 v hfind
    rw [List.map_cons, List.nodup_cons] at hnd
    have hnn1 : ∀ x ∈ save_variant vs { v with stock := v.stock - Int.ofNat p.2 },
        0 ≤ x.stock := by
      intro x hx
      rcases mem_save_variant hx with hx1 | hx2
      · rw [hx1]
        simpa using hle
      · exact hnn x hx2
    have hreq1 : ∀ q ∈ rest,
        ∃ w, findf (save_variant vs { v with stock := v.stock - Int.ofNat p.2 }) q.1 = some w ∧
          Int.ofNat q.2 ≤ w.stock := by
      intro q hq
      have hqk : q.1 ≠ p.1 := by
        intro hc
        exact hnd.1 (hc ▸ List.mem_map_of_mem Prod.fst hq)
      have hrw := hstab vs { v with stock := v.stock - Int.ofNat p.2 } q.1
        (by simpa [hvid] using fun hc => hqk hc.symm)
      rw [hrw]
      exact hreq q (List.mem_cons_of_mem _ hq)
    exact ih (save_variant vs { v with stock := v.stock - Int.ofNat p.2 })
      hnd.2 hnn1 hreq1 v1 hv1

theorem deduct_stock_nonneg {vs : List Variant} {req : List (Nat × Nat)}
    (hnd : (req.map Prod.fst).Nodup)
    (hnn : ∀ v ∈ vs, 0 ≤ v.stock)
    (hreq : ∀ p ∈ req, ∃ v, find_variant vs p.1 = some v ∧ Int.ofNat p.2 ≤ v.stock) :
    ∀ v1 ∈ deduct_stock vs req, 0 ≤ v1.stock := by
  unfold deduct_stock
  exact deduct_fold_nonneg find_variant
    (fun _ _ _ h => find_variant_save_ne h)
    (fun _ _ _ h => find_variant_eq_id h)
    req vs hnd hnn hreq

theorem deduct_stock_active_nonneg {vs : List Variant} {req : List (Nat × Nat)}
    (hnd : (req.map Prod.fst).Nodup)
    (hnn : ∀ v ∈ vs, 0 ≤ v.stock)
    (hreq : ∀ p ∈ req, ∃ v, find_active_variant vs p.1 = some v ∧ Int.ofNat p.2 ≤ v.stock) :
    ∀ v1 ∈ deduct_stock_active vs req, 0 ≤ v1.stock := by
  unfold deduct_stock_active
  exact deduct_fold_nonneg find_active_variant
    (fun _ _ _ h => find_active_variant_save_ne h)
    (fun _ _ _ h => (find_active_variant_eq_id h).1)
    req vs hnd hnn hreq

/-! ## Helper lemmas: the stock validator -/

theorem check_item_ok_elim {it : StockItem} (h : (check_item it).ok = true) :
    ∃ v, it.product_variant = some v ∧ v.is_active = true ∧
      1 ≤ it.quantity.getD 0 ∧ it.quantity.getD 0 ≤ v.stock := by
  unfold check_item _extract_variant_and_qty at h
  simp only [] at h
  by_cases hq : it.quantity.getD 0 < 1
  · rw [if_pos hq] at h
    simp at h
  · rw [if_neg hq] at h
    rcases hv : it.product_variant with _ | v
    · simp only [hv] at h
      simp at h
    · simp only [hv] at h
      by_cases hact : v.is_active = false
      · rw [if_pos hact] at h
        simp at h
      · rw [if_neg hact] at h
        by_cases hst : v.stock < it.quantity.getD 0
        · rw [if_pos hst] at h
          simp at h
        · exact ⟨v, rfl, Bool.not_eq_false v.is_active ▸ hact,
            Int.not_lt.mp hq, Int.not_lt.mp hst⟩

theorem assert_items_stock_ok_iff (items : List StockItem) :
    assert_items_stock items = Except.ok () ↔
      ∀ r ∈ validate_items_stock items, r.ok = true := by
  unfold assert_items_stock
  simp only []
  split_ifs with h
  · constructor
    · intro _ r hr
      rw [List.isEmpty_iff, List.map_eq_nil_iff, List.filter_eq_nil_iff] at h
      simpa using h r hr
    · intro _
      rfl
  · constructor
    · intro hc
      exact absurd hc (by simp)
    · intro hall
      exfalso
      apply h
      rw [List.isEmpty_iff, List.map_eq_nil_iff, List.filter_eq_nil_iff]
      intro r hr
      simp [hall r hr]

theorem assert_items_stock_error_of_mem {items : List StockItem}
    {r : StockCheckResult} (hr : r ∈ validate_items_stock items)
    (hok : r.ok = false) :
    assert_items_stock items = Except.error (String.intercalate "; "
        (((validate_items_stock items).filter (fun x => !x.ok)).map stock_error_line))
    ∧ stock_error_line r ∈
        ((validate_items_stock items).filter (fun x => !x.ok)).map stock_error_line := by
  have hrf : r ∈ (validate_items_stock items).filter (fun x => !x.ok) :=
    List.mem_filter.mpr ⟨hr, by simp [hok]⟩
  have hmem := List.mem_map_of_mem stock_error_line hrf
  refine ⟨?_, hmem⟩
  unfold assert_items_stock
  simp only []
  split_ifs with h
  · exfalso
    rw [List.isEmpty_iff] at h
    rw [h] at hmem
    exact List.not_mem_nil _ hmem
  · rfl

/-! ## Helper lemmas: field preservation and the service/model state walk -/

theorem recalc_pk (o : Order) (items : List OrderItem) :
    (_recalc_totals_in_memory o items).pk = o.pk := by
  unfold _recalc_totals_in_memory
  split <;> rfl

theorem recalc_shipping (o : Order) (items : List OrderItem) :
    (_recalc_totals_in_memory o items).shipping_cost = o.shipping_cost := by
  unfold _recalc_totals_in_memory
  split <;> rfl

/-- What every successful return of the service `confirm_order_payment`
guarantees: the order is PAID with the idempotency marker set, the reflected
order equals the stored one, and the state is either untouched (idempotent
fast path) or the canonical fresh-confirmation state. -/
theorem confirm_order_payment_ok_inv {db : DB} {now : Nat} {db1 : DB} {o1 : Order}
    (h : confirm_order_payment db now = Except.ok (db1, o1)) :
    db1.order.pk = db.order.pk ∧ db.order.pk ≠ none ∧
      db1.order.status = Status.paid ∧
      db1.order.stock_deducted_at.isSome = true ∧ o1 = db1.order ∧
      (db1 = db ∨
        (db1 = confirm_success_db db now ∧
          assert_items_stock (order_stock_items db) = Except.ok () ∧
          (service_missing db).isEmpty = true ∧
          db.items.isEmpty = false ∧
          (db.order.status = Status.created ∨ db.order.status = Status.pending_payment))) := by
  unfold confirm_order_payment at h
  split_ifs at h with h0 h1 h2 h3 h4 h5 h6
  · simp only [Except.ok.injEq, Prod.mk.injEq] at h
    obtain ⟨rfl, rfl⟩ := h
    exact ⟨rfl, h0, h2.1, h2.2, rfl, Or.inl rfl⟩
  · rcases hA : assert_items_stock (order_stock_items db) with msg | u
    · rw [hA] at h
      exact absurd h (by simp)
    · cases u
      rw [hA] at h
      simp only [Except.ok.injEq, Prod.mk.injEq] at h
      obtain ⟨rfl, rfl⟩ := h
      have hpk1 : (confirm_success_db db now).order.pk = db.order.pk := by
        show (confirm_success_order db now).pk = db.order.pk
        unfold confirm_success_order
        simpa using recalc_pk db.order db.items
      refine ⟨hpk1, h0, rfl, rfl, rfl, Or.inr ⟨rfl, rfl, ?_, ?_, ?_⟩⟩
      · simpa using h6
      · simpa using h5
      · rcases not_and_or.mp h4 with hc | hp
        · exact Or.inl (not_not.mp hc)
        · exact Or.inr (not_not.mp hp)

/-- The idempotency fast path of the service, run forward. -/
theorem confirm_order_payment_fast {db : DB} (now : Nat)
    (hpk : db.order.pk ≠ none) (hs : db.order.status = Status.paid)
    (hm : db.order.stock_deducted_at.isSome = true) :
    confirm_order_payment db now = Except.ok (db, db.order) := by
  unfold confirm_order_payment
  rw [if_neg hpk, if_neg (by simp [hs]), if_pos ⟨hs, hm⟩]

/-- What every successful return of the model method `Order.confirm_payment`
guarantees. -/
theorem model_confirm_ok_inv {db : DB} {now : Nat} {db2 : DB}
    (h : Order.confirm_payment db now = Except.ok db2) :
    db2.order.pk = db.order.pk ∧ db.order.pk ≠ none ∧
      db2.order.status = Status.paid ∧
      db2.order.stock_deducted_at.isSome = true ∧
      (db2 = db ∨
        (db2 = model_success_db db now ∧
          (model_missing db).isEmpty = true ∧
          model_insufficient db = none)) := by
  unfold Order.confirm_payment at h
  split_ifs at h with h0 h1 h2 h3 h4
  · simp only [Except.ok.injEq] at h
    subst h
    exact ⟨rfl, h0, h2.1, h2.2, Or.inl rfl⟩
  · rcases hI : model_insufficient db with _ | p
    · rw [hI] at h
      simp only [Except.ok.injEq] at h
      subst h
      have hpk1 : (model_success_db db now).order.pk = db.order.pk := by
        show (model_success_order db now).pk = db.order.pk
        unfold model_success_order
        simpa using recalc_pk db.order db.items
      exact ⟨hpk1, h0, rfl, rfl, Or.inr ⟨rfl, by simpa using h4, rfl⟩⟩
    · rw [hI] at h
      exact absurd h (by simp)

/-- The idempotency fast path of the model method, run forward. -/
theorem model_confirm_fast {db : DB} (now : Nat)
    (hpk : db.order.pk ≠ none) (hs : db.order.status = Status.paid)
    (hm : db.order.stock_deducted_at.isSome = true) :
    Order.confirm_payment db now = Except.ok db := by
  unfold Order.confirm_payment
  rw [if_neg hpk, if_neg (by simp [hs]), if_pos ⟨hs, hm⟩]

/-! ## Helper lemmas: validation facts carried into the deduction loops -/

/-- A silently passing `assert_items_stock` over the service's aggregated
stock items means every aggregated pair resolves to a variant holding at
least the required quantity. -/
theorem assert_ok_stock_bounds {db : DB}
    (h : assert_items_stock (order_stock_items db) = Except.ok ()) :
    ∀ p ∈ required_by_variant db.items,
      ∃ v, find_variant db.variants p.1 = some v ∧ Int.ofNat p.2 ≤ v.stock := by
  intro p hp
  have hall := (assert_items_stock_ok_iff _).mp h
  have hmem : check_item
      (StockItem.mk (find_variant db.variants p.1) (some (Int.ofNat p.2)))
      ∈ validate_items_stock (order_stock_items db) := by
    unfold validate_items_stock order_stock_items
    rw [List.map_map]
    exact List.mem_map_of_mem _ hp
  obtain ⟨v, hv, _, _, h2⟩ := check_item_ok_elim (hall _ hmem)
  exact ⟨v, hv, by simpa using h2⟩

/-- The model method's own checks (missing filter empty, no insufficient
pair found) mean every aggregated pair resolves to an active variant
holding at least the required quantity. -/
theorem model_checks_stock_bounds {db : DB}
    (hmiss : (model_missing db).isEmpty = true)
    (hins : model_insufficient db = none) :
    ∀ p ∈ required_by_variant db.items,
      ∃ v, find_active_variant db.variants p.1 = some v ∧ Int.ofNat p.2 ≤ v.stock := by
  intro p hp
  rw [List.isEmpty_iff] at hmiss
  unfold model_insufficient at hins
  have hnone := List.find?_eq_none.mp hins p hp
  rcases hfa : find_active_variant db.variants p.1 with _ | v
  · exfalso
    have : p.1 ∈ model_missing db := by
      unfold model_missing
      exact List.mem_filter.mpr ⟨List.mem_map_of_mem Prod.fst hp, by simp [hfa]⟩
    rw [hmiss] at this
    exact List.not_mem_nil _ this
  · refine ⟨v, rfl, ?_⟩
    simp only [hfa] at hnone
    simpa using Int.not_lt.mp (by simpa using hnone)

/-- Walking the service forward: a pending/created order whose aggregated
stock items do not all validate makes `confirm_order_payment` raise. -/
theorem confirm_service_validation_error {db : DB} (now : Nat)
    (hs : db.order.status = Status.pending_payment ∨ db.order.status = Status.created)
    (hvf : ¬ ∀ r ∈ validate_items_stock (order_stock_items db), r.ok = true) :
    ∃ msg, confirm_order_payment db now = Except.error msg := by
  by_cases hpk : db.order.pk = none
  · exact ⟨_, by unfold confirm_order_payment; rw [if_pos hpk]⟩
  · unfold confirm_order_payment
    rw [if_neg hpk]
    rw [if_neg (by rcases hs with h | h <;> simp [h])]
    rw [if_neg (by rcases hs with h | h <;> simp [h])]
    rw [if_neg (by rcases hs with h | h <;> simp [h])]
    rw [if_neg (by rcases hs with h | h <;> simp [h])]
    by_cases hemp : db.items.isEmpty
    · rw [if_pos hemp]
      exact ⟨_, rfl⟩
    · rw [if_neg hemp]
      by_cases hmiss : (service_missing db).isEmpty = false
      · rw [if_pos hmiss]
        exact ⟨_, rfl⟩
      · rw [if_neg hmiss]
        rcases hA : assert_items_stock (order_stock_items db) with msg | u
        · exact ⟨msg, rfl⟩
        · exfalso
          cases u
          exact hvf ((assert_items_stock_ok_iff _).mp hA)

/-- Walking the model method forward: a pending/created order that fails the
missing-variant filter or the inline stock loop makes `Order.confirm_payment`
raise. -/
theorem model_confirm_validation_error {db : DB} (now : Nat)
    (hs : db.order.status = Status.pending_payment ∨ db.order.status = Status.created)
    (hvf : (model_missing db).isEmpty = false ∨ (model_insufficient db).isSome = true) :
    ∃ msg, Order.confirm_payment db now = Except.error msg := by
  by_cases hpk : db.order.pk = none
  · exact ⟨_, by unfold Order.confirm_payment; rw [if_pos hpk]⟩
  · unfold Order.confirm_payment
    rw [if_neg hpk]
    rw [if_neg (by rcases hs with h | h <;> simp [h])]
    rw [if_neg (by rcases hs with h | h <;> simp [h])]
    rw [if_neg (by rcases hs with h | h <;> simp [h])]
    by_cases hmiss : (model_missing db).isEmpty = false
    · rw [if_pos hmiss]
      exact ⟨_, rfl⟩
    · rw [if_neg hmiss]
      have hins : (model_insufficient db).isSome = true := by
        rcases hvf with h | h
        · exact absurd h hmiss
        · exact h
      rcases hI : model_insufficient db with _ | p
      · rw [hI] at hins
        simp at hins
      · exact ⟨_, rfl⟩

/-! ## Claim theorems -/

/-- C1: after any successful confirmation (order PAID with
`stock_deducted_at` set), calling confirmation again — through the service
or through the model method — returns success with the database literally
unchanged: no variant's stock is decremented again and `stock_deducted_at`
is identical between the two calls, so stock is decremented exactly once
per order. -/
theorem confirm_payment_idempotent (db : DB) (now1 now2 : Nat) :
    (∀ db1 o1, confirm_order_payment db now1 = Except.ok (db1, o1) →
      confirm_order_payment db1 now2 = Except.ok (db1, db1.order)
      ∧ Order.confirm_payment db1 now2 = Except.ok db1)
    ∧ (∀ db2, Order.confirm_payment db now1 = Except.ok db2 →
      Order.confirm_payment db2 now2 = Except.ok db2
      ∧ confirm_order_payment db2 now2 = Except.ok (db2, db2.order)) := by
  constructor
  · intro db1 o1 h
    obtain ⟨hpk, hpkne, hs, hm, _, _⟩ := confirm_order_payment_ok_inv h
    have hpk1 : db1.order.pk ≠ none := by rw [hpk]; exact hpkne
    exact ⟨confirm_order_payment_fast now2 hpk1 hs hm,
      model_confirm_fast now2 hpk1 hs hm⟩
  · intro db2 h
    obtain ⟨hpk, hpkne, hs, hm, _⟩ := model_confirm_ok_inv h
    have hpk1 : db2.order.pk ≠ none := by rw [hpk]; exact hpkne
    exact ⟨model_confirm_fast now2 hpk1 hs hm,
      confirm_order_payment_fast now2 hpk1 hs hm⟩

theorem confirm_payment_idempotent_witness :
    confirm_order_payment (confirm_success_db exDB 5) 6 =
      Except.ok (confirm_success_db exDB 5, (confirm_success_db exDB 5).order) :=
  ((confirm_payment_idempotent exDB 5 6).1 (confirm_success_db exDB 5)
    (confirm_success_order exDB 5) rfl).1

/-- C2 counterexample: on a PAID order whose `stock_deducted_at` is unset,
the model method `Order.confirm_payment` (the path the admin action calls)
does NOT reject: it succeeds and deducts stock again (variant 1 goes from
stock 5 to stock 3), contradicting the claim that confirm_payment rejects
with an invalid-state error and performs no stock deduction. -/
theorem model_confirm_deducts_on_paid_without_marker :
    exPaidNoMark.order.status = Status.paid
    ∧ exPaidNoMark.order.stock_deducted_at = none
    ∧ Order.confirm_payment exPaidNoMark 9 = Except.ok (model_success_db exPaidNoMark 9)
    ∧ (model_success_db exPaidNoMark 9).variants = [Variant.mk 1 3 true]
    ∧ exPaidNoMark.variants = [Variant.mk 1 5 true] :=
  ⟨rfl, rfl, rfl, rfl, rfl⟩

/-- C2 amended: only the service `confirm_order_payment` treats
PAID-without-marker as a corrupted state and rejects it with the
invalid-state error, performing no change; the model method
`Order.confirm_payment` instead falls through and re-runs deduction. -/
theorem service_rejects_paid_without_marker (db : DB) (now : Nat)
    (hpk : db.order.pk ≠ none) (hs : db.order.status = Status.paid)
    (hm : db.order.stock_deducted_at = none) :
    confirm_order_payment db now =
      Except.error "El pedido ya está marcado como pagado; no se puede reconfirmar." := by
  unfold confirm_order_payment
  rw [if_neg hpk]
  rw [if_neg (by simp [hs])]
  rw [if_neg (by rintro ⟨_, hms⟩; rw [hm] at hms; simp at hms)]
  rw [if_pos ⟨hs, hm⟩]

theorem service_rejects_paid_without_marker_witness :
    confirm_order_payment exPaidNoMark 9 =
      Except.error "El pedido ya está marcado como pagado; no se puede reconfirmar." :=
  service_rejects_paid_without_marker exPaidNoMark 9 (by decide) (by decide) (by decide)

/-- C3: for a pending/created order, any stock-validation failure makes the
confirmation raise and the committed state — the transaction rolls back on
a raise — is exactly the original database: no variant's stock changes and
the order's status, totals and timestamps are untouched. The first conjunct
covers the service (validator failure), the second the model method (its
missing-variant filter or inline stock loop failing). -/
theorem confirm_payment_atomic_on_validation_failure (db : DB) (now : Nat)
    (hs : db.order.status = Status.pending_payment ∨ db.order.status = Status.created) :
    ((¬ ∀ r ∈ validate_items_stock (order_stock_items db), r.ok = true) →
      (∃ msg, confirm_order_payment db now = Except.error msg)
      ∧ confirm_order_payment_run db now = db)
    ∧ (((model_missing db).isEmpty = false ∨ (model_insufficient db).isSome = true) →
      (∃ msg, Order.confirm_payment db now = Except.error msg)
      ∧ model_confirm_run db now = db) := by
  constructor
  · intro hvf
    obtain ⟨msg, hmsg⟩ := confirm_service_validation_error now hs hvf
    refine ⟨⟨msg, hmsg⟩, ?_⟩
    unfold confirm_order_payment_run
    rw [hmsg]
  · intro hvf
    obtain ⟨msg, hmsg⟩ := model_confirm_validation_error now hs hvf
    refine ⟨⟨msg, hmsg⟩, ?_⟩
    unfold model_confirm_run
    rw [hmsg]

theorem confirm_payment_atomic_witness :
    confirm_order_payment_run exBad 4 = exBad ∧ model_confirm_run exBad 4 = exBad :=
  ⟨((confirm_payment_atomic_on_validation_failure exBad 4 (by decide)).1 (by decide)).2,
   ((confirm_payment_atomic_on_validation_failure exBad 4 (by decide)).2 (by decide)).2⟩

/-- C4: starting from a variant table with non-negative stock, every
successful confirmation — service or model method — leaves every variant's
stock non-negative: a confirmation whose aggregated requirement exceeds any
variant's stock is rejected in its entirety before any deduction. -/
theorem confirm_payment_stock_nonneg (db : DB) (now : Nat)
    (hnn : ∀ v ∈ db.variants, 0 ≤ v.stock) :
    (∀ db1 o1, confirm_order_payment db now = Except.ok (db1, o1) →
      ∀ v ∈ db1.variants, 0 ≤ v.stock)
    ∧ (∀ db2, Order.confirm_payment db now = Except.ok db2 →
      ∀ v ∈ db2.variants, 0 ≤ v.stock) := by
  constructor
  · intro db1 o1 h
    obtain ⟨_, _, _, _, _, hcase⟩ := confirm_order_payment_ok_inv h
    rcases hcase with rfl | ⟨rfl, hA, _, _, _⟩
    · exact hnn
    · intro v hv
      exact deduct_stock_nonneg (required_by_variant_keys_nodup db.items) hnn
        (assert_ok_stock_bounds hA) v hv
  · intro db2 h
    obtain ⟨_, _, _, _, hcase⟩ := model_confirm_ok_inv h
    rcases hcase with rfl | ⟨rfl, hmiss, hins⟩
    · exact hnn
    · intro v hv
      exact deduct_stock_active_nonneg (required_by_variant_keys_nodup db.items) hnn
        (model_checks_stock_bounds hmiss hins) v hv

theorem confirm_payment_stock_nonneg_witness :
    (0 : Int) ≤ (Variant.mk 1 2 true).stock :=
  ((confirm_payment_stock_nonneg exDB 5 (by decide)).1 (confirm_success_db exDB 5)
    (confirm_success_order exDB 5) rfl) (Variant.mk 1 2 true) (by decide)

/-- C5 counterexample: the model method `Order.confirm_payment` (the path
the admin action calls) performs no empty-order check: on a persisted
pending order with zero line items it succeeds, marks the order PAID and
sets `stock_deducted_at`, contradicting the claim that confirmation of an
empty order fails with a hard error and leaves the order unchanged. -/
theorem model_confirm_accepts_empty_order :
    exEmpty.items = []
    ∧ exEmpty.order.status = Status.pending_payment
    ∧ Order.confirm_payment exEmpty 3 = Except.ok (model_success_db exEmpty 3)
    ∧ (model_success_db exEmpty 3).order.status = Status.paid
    ∧ (model_success_db exEmpty 3).order.stock_deducted_at = some 3 :=
  ⟨rfl, rfl, rfl, rfl, rfl⟩

/-- C5 amended: only the service `confirm_order_payment` rejects an order
with zero line items, raising the hard empty-order error before touching
anything; the model method confirms an empty order as PAID. -/
theorem service_rejects_empty_order (db : DB) (now : Nat)
    (hpk : db.order.pk ≠ none)
    (hs : db.order.status = Status.pending_payment ∨ db.order.status = Status.created)
    (hi : db.items = []) :
    confirm_order_payment db now = Except.error "La orden no tiene ítems asociados." := by
  unfold confirm_order_payment
  rw [if_neg hpk]
  rw [if_neg (by rcases hs with h | h <;> simp [h])]
  rw [if_neg (by rcases hs with h | h <;> simp [h])]
  rw [if_neg (by rcases hs with h | h <;> simp [h])]
  rw [if_neg (by rcases hs with h | h <;> simp [h])]
  rw [if_pos (by simp [hi])]

theorem service_rejects_empty_order_witness :
    confirm_order_payment exEmpty 3 = Except.error "La orden no tiene ítems asociados." :=
  service_rejects_empty_order exEmpty 3 (by decide) (Or.inl (by decide)) (by decide)

/-- C6: `assert_items_stock` (the enforcing mode) proceeds silently exactly
when every classification is ok, and otherwise raises one single aggregated
error whose message joins, with "; ", one line per failing result — each
line naming that result's variant id together with its requested and
available counts (`stock_error_line`). -/
theorem assert_items_stock_aggregated_error (items : List StockItem) :
    (assert_items_stock items = Except.ok () ↔
      ∀ r ∈ validate_items_stock items, r.ok = true)
    ∧ (∀ r ∈ validate_items_stock items, r.ok = false →
      assert_items_stock items = Except.error (String.intercalate "; "
        (((validate_items_stock items).filter (fun x => !x.ok)).map stock_error_line))
      ∧ stock_error_line r ∈
        ((validate_items_stock items).filter (fun x => !x.ok)).map stock_error_line) :=
  ⟨assert_items_stock_ok_iff items,
   fun _ hr hok => assert_items_stock_error_of_mem hr hok⟩

theorem assert_items_stock_aggregated_error_witness :
    assert_items_stock [StockItem.mk (some (Variant.mk 1 1 true)) (some 2)] =
      Except.error "Variante #1: Stock insuficiente. (solicitado: 2, disponible: 1)" := by
  have h := ((assert_items_stock_aggregated_error
      [StockItem.mk (some (Variant.mk 1 1 true)) (some 2)]).2
      (check_item (StockItem.mk (some (Variant.mk 1 1 true)) (some 2)))
      (by decide) (by decide)).1
  exact h.trans rfl

/-- C7: the line aggregator maps each variant id to the sum of quantities
over all line items referencing it — duplicate lines for one variant are
summed into a single requirement (2 and 3 become one requirement of 5),
never kept as independent smaller checks. -/
theorem required_by_variant_sums_duplicates (items : List OrderItem) (vid : Nat) :
    dict_get (required_by_variant items) vid 0 =
      ((items.filter (fun it => it.product_variant_id == vid)).map OrderItem.quantity).sum := by
  unfold required_by_variant
  rw [dict_get_req_foldl]
  simp [dict_get]

/-- C8: after every save, `total = subtotal + shipping_cost`, and for an
order that already exists in the database (has a pk) the persisted subtotal
is the sum over its current line items of quantity times the unit-price
snapshot (a missing snapshot contributing nothing) — totals are recomputed
on every save and cannot drift from the line items. -/
theorem order_save_total_invariant (o : Order) (items : List OrderItem) :
    (Order.save o items).total =
      (Order.save o items).subtotal + (Order.save o items).shipping_cost
    ∧ (o.pk.isSome = true →
      (Order.save o items).subtotal =
        (items.map (fun it => it.quantity * it.unit_price.getD 0)).sum) := by
  constructor
  · rfl
  · intro hpk
    unfold Order.save _recalc_totals_in_memory
    simp only [hpk, if_true]
    apply congrArg List.sum
    apply List.map_congr_left
    intro it _
    cases hup : it.unit_price <;> simp [hup]

theorem order_save_total_invariant_witness :
    (Order.save exOrder [OrderItem.mk 1 3 (some 100)]).subtotal = 300 := by
  have h := (order_save_total_invariant exOrder [OrderItem.mk 1 3 (some 100)]).2 (by decide)
  rw [h]
  rfl

/-- C9 counterexample: `OrderItem.save` only guards edits of an existing
row (`self.pk` set); a brand-new item being added to an already-PAID order
passes the guard and is saved successfully (with the unit price autofilled
from the product), contradicting the claim that every attempt to add a new
OrderItem to a PAID order raises. -/
theorem orderitem_save_allows_adding_to_paid_order :
    exNewItem.order_status = Status.paid
    ∧ exNewItem.pk = none
    ∧ OrderItem.save exNewItem =
        Except.ok (ItemRow.mk none true Status.paid (some 100) 2 (some 100)) :=
  ⟨rfl, rfl, rfl⟩

/-- C9 amended: once the owning order is PAID, saving an edit to an
existing OrderItem (one with a pk) raises and persists nothing; adding a
brand-new item is not blocked by `OrderItem.save`. -/
theorem orderitem_save_blocks_edits_on_paid_order (it : ItemRow)
    (hpk : it.pk.isSome = true) (hs : it.order_status = Status.paid) :
    OrderItem.save it =
      Except.error "No se pueden modificar items de una orden ya pagada." := by
  unfold OrderItem.save
  rw [if_pos ⟨hpk, hs⟩]

theorem orderitem_save_blocks_edits_witness :
    OrderItem.save (ItemRow.mk (some 4) false Status.paid (some 100) 2 (some 50)) =
      Except.error "No se pueden modificar items de una orden ya pagada." :=
  orderitem_save_blocks_edits_on_paid_order _ (by decide) (by decide)

/-- C10: an item whose extracted requested quantity is below 1 (zero,
negative, or absent — `int(qty or 0)`) is classified not-ok with the
dedicated reason and with the reported requested/available numbers, rather
than being treated as ok or raising inside the validator; in enforcing mode
the whole batch containing it is rejected. -/
theorem qty_below_one_rejected (items : List StockItem) (item : StockItem)
    (hmem : item ∈ items) (hq : item.quantity.getD 0 < 1) :
    (check_item item).ok = false
    ∧ (check_item item).reason = some "Cantidad inválida."
    ∧ (check_item item).requested = item.quantity.getD 0
    ∧ (check_item item).available = (item.product_variant.map Variant.stock).getD 0
    ∧ ∃ msg, assert_items_stock items = Except.error msg := by
  have hci : check_item item =
      { variant_id := item.product_variant.map Variant.id
        ok := false
        requested := item.quantity.getD 0
        available := (item.product_variant.map Variant.stock).getD 0
        is_active := (item.product_variant.map Variant.is_active).getD false
        reason := some "Cantidad inválida." } := by
    unfold check_item _extract_variant_and_qty
    simp only []
    rw [if_pos hq]
  refine ⟨by rw [hci], by rw [hci], by rw [hci], by rw [hci], ?_⟩
  have hmem2 : check_item item ∈ validate_items_stock items :=
    List.mem_map_of_mem _ hmem
  exact ⟨_, (assert_items_stock_error_of_mem hmem2 (by rw [hci])).1⟩

theorem qty_below_one_rejected_witness :
    (check_item (StockItem.mk (some (Variant.mk 7 4 true)) (some 0))).ok = false :=
  (qty_below_one_rejected [StockItem.mk (some (Variant.mk 7 4 true)) (some 0)]
    (StockItem.mk (some (Variant.mk 7 4 true)) (some 0)) (by decide) (by decide)).1

end KameCol
